import Mathlib

/-!
Verification of the fyp-atomix fault-injection and consistency-verification
harness. The definitions below are shallow embeddings of the Go source:

* string helpers mirror Go's strings.Split / strings.Contains / strconv.Atoi
  as used by the harness;
* SHA-256 mirrors crypto/sha256 (checked against the standard test vectors);
* getKeyPartition, updateLeaderInfo, terminateLeaderPod, waitForLeaderElection
  are from the enhanced failover test harness;
* linearizabilityVerify / writeDurabilityVerify are the verification phases of
  the concurrency (linearizability / write-durability) test;
* detectSequenceGaps is from the log analyzer;
* parseLogFile / analyzeResults rates are from the experiment-4 result analyzer.

Effectful Go code is embedded by making its inputs explicit: a poll loop
becomes a function of the list of poll outcomes it would observe, a Kubernetes
API call becomes an argument carrying the call's result, and wall-clock
timestamps become explicit numeric parameters.
-/

/-! ### Go string primitives used by the harness -/

/-- Go strings.Split with a one-character separator, over the character list. -/
def splitChar (sep : Char) : List Char → List (List Char)
  | [] => [[]]
  | c :: rest =>
    let r := splitChar sep rest
    if c = sep then [] :: r
    else (c :: r.headD []) :: r.tail

/-- Go strings.Split(s, sep) for a one-character separator. -/
def goSplit (s : String) (sep : Char) : List String :=
  (splitChar sep s.data).map (fun l => String.mk l)

/-- Go strings.Contains(hay, needle), over character lists. -/
def containsSub (hay needle : List Char) : Bool :=
  match hay with
  | [] => needle.isEmpty
  | _ :: rest => needle.isPrefixOf hay || containsSub rest needle

/-- Numeric value of an ASCII digit character, none for non-digits. -/
def digitVal (c : Char) : Option Nat :=
  if 48 ≤ c.toNat ∧ c.toNat ≤ 57 then some (c.toNat - 48) else none

/-- Decimal digit-string parsing; none for the empty string or non-digits. -/
def parseDigits (l : List Char) : Option Nat :=
  if l.isEmpty then none
  else l.foldl (fun acc c => acc.bind (fun n => (digitVal c).map (fun d => 10 * n + d))) (some 0)

/-- Go strconv.Atoi: optional sign followed by decimal digits. -/
def atoi (s : String) : Option Int :=
  match s.data with
  | '-' :: rest => (parseDigits rest).map (fun n => -(n : Int))
  | '+' :: rest => (parseDigits rest).map (fun n => (n : Int))
  | l => (parseDigits l).map (fun n => (n : Int))

/-! ### SHA-256 (crypto/sha256), used by getKeyPartition -/

/-- 2^32, the modulus of 32-bit word arithmetic. -/
def w32 : Nat := 4294967296

/-- Right rotation of a 32-bit word. -/
def rotr (n x : Nat) : Nat := ((x >>> n) ||| (x <<< (32 - n))) % w32

def bsig0 (x : Nat) : Nat := (rotr 2 x) ^^^ (rotr 13 x) ^^^ (rotr 22 x)

def bsig1 (x : Nat) : Nat := (rotr 6 x) ^^^ (rotr 11 x) ^^^ (rotr 25 x)

def ssig0 (x : Nat) : Nat := (rotr 7 x) ^^^ (rotr 18 x) ^^^ (x >>> 3)

def ssig1 (x : Nat) : Nat := (rotr 17 x) ^^^ (rotr 19 x) ^^^ (x >>> 10)

def chf (x y z : Nat) : Nat := (x &&& y) ^^^ ((x ^^^ (w32 - 1)) &&& z)

def majf (x y z : Nat) : Nat := (x &&& y) ^^^ (x &&& z) ^^^ (y &&& z)

/-- The 64 SHA-256 round constants. -/
def sha256K : List Nat :=
  [1116352408, 1899447441, 3049323471, 3921009573, 961987163, 1508970993,
   2453635748, 2870763221, 3624381080, 310598401, 607225278, 1426881987,
   1925078388, 2162078206, 2614888103, 3248222580, 3835390401, 4022224774,
   264347078, 604807628, 770255983, 1249150122, 1555081692, 1996064986,
   2554220882, 2821834349, 2952996808, 3210313671, 3336571891, 3584528711,
   113926993, 338241895, 666307205, 773529912, 1294757372, 1396182291,
   1695183700, 1986661051, 2177026350, 2456956037, 2730485921, 2820302411,
   3259730800, 3345764771, 3516065817, 3600352804, 4094571909, 275423344,
   430227734, 506948616, 659060556, 883997877, 958139571, 1322822218,
   1537002063, 1747873779, 1955562222, 2024104815, 2227730452, 2361852424,
   2428436474, 2756734187, 3204031479, 3329325298]

/-- The SHA-256 initial hash value. -/
def sha256H0 : List Nat :=
  [1779033703, 3144134277, 1013904242,
   2773480762, 1359893119, 2600822924,
   528734635, 1541459225]

/-- 64-bit big-endian byte encoding. -/
def beBytes8 (n : Nat) : List Nat :=
  [(n >>> 56) &&& 255, (n >>> 48) &&& 255, (n >>> 40) &&& 255, (n >>> 32) &&& 255,
   (n >>> 24) &&& 255, (n >>> 16) &&& 255, (n >>> 8) &&& 255, n &&& 255]

/-- SHA-256 padding: 0x80, zeros to 56 mod 64, then the 64-bit bit length. -/
def padMessage (msg : List Nat) : List Nat :=
  msg ++ [128] ++ List.replicate ((119 - msg.length % 64) % 64) 0 ++ beBytes8 (8 * msg.length)

/-- The sixteen 32-bit big-endian words of one 64-byte block. -/
def wordsOfBlock (block : List Nat) : List Nat :=
  (List.range 16).map (fun i =>
    (block.getD (4 * i) 0) <<< 24 ||| (block.getD (4 * i + 1) 0) <<< 16 |||
    (block.getD (4 * i + 2) 0) <<< 8 ||| (block.getD (4 * i + 3) 0))

/-- Message-schedule extension of 16 words to 64. -/
def extendWords (w16 : List Nat) : List Nat :=
  (List.range' 16 48).foldl (fun w i =>
    w ++ [(ssig1 (w.getD (i - 2) 0) + w.getD (i - 7) 0 + ssig0 (w.getD (i - 15) 0)
           + w.getD (i - 16) 0) % w32]) w16

/-- One SHA-256 compression step over a 64-byte block. -/
def compress (h : List Nat) (block : List Nat) : List Nat :=
  let w := extendWords (wordsOfBlock block)
  let st := (List.range 64).foldl (fun (st : Nat × Nat × Nat × Nat × Nat × Nat × Nat × Nat) i =>
    let (a, b, c, d, e, f, g, hh) := st
    let t1 := (hh + bsig1 e + chf e f g + sha256K.getD i 0 + w.getD i 0) % w32
    let t2 := (bsig0 a + majf a b c) % w32
    ((t1 + t2) % w32, a, b, c, (d + t1) % w32, e, f, g))
    (h.getD 0 0, h.getD 1 0, h.getD 2 0, h.getD 3 0, h.getD 4 0, h.getD 5 0, h.getD 6 0, h.getD 7 0)
  let (a, b, c, d, e, f, g, hh) := st
  [(h.getD 0 0 + a) % w32, (h.getD 1 0 + b) % w32, (h.getD 2 0 + c) % w32, (h.getD 3 0 + d) % w32,
   (h.getD 4 0 + e) % w32, (h.getD 5 0 + f) % w32, (h.getD 6 0 + g) % w32, (h.getD 7 0 + hh) % w32]

/-- 32-bit big-endian byte encoding. -/
def wordBytes (n : Nat) : List Nat :=
  [(n >>> 24) &&& 255, (n >>> 16) &&& 255, (n >>> 8) &&& 255, n &&& 255]

/-- SHA-256 digest (32 bytes) of a byte sequence. -/
def sha256 (msg : List Nat) : List Nat :=
  let padded := padMessage msg
  let nBlocks := padded.length / 64
  let finalH := (List.range nBlocks).foldl
    (fun h i => compress h ((padded.drop (64 * i)).take 64)) sha256H0
  (finalH.map wordBytes).flatten

/-- UTF-8 encoding of one character (Go's byte-slice conversion of a string). -/
def utf8Bytes (c : Char) : List Nat :=
  let n := c.toNat
  if n < 128 then [n]
  else if n < 2048 then [192 ||| (n >>> 6), 128 ||| (n &&& 63)]
  else if n < 65536 then [224 ||| (n >>> 12), 128 ||| ((n >>> 6) &&& 63), 128 ||| (n &&& 63)]
  else [240 ||| (n >>> 18), 128 ||| ((n >>> 12) &&& 63), 128 ||| ((n >>> 6) &&& 63),
        128 ||| (n &&& 63)]

/-- Go []byte(s): the UTF-8 bytes of a string. -/
def stringBytes (s : String) : List Nat :=
  (s.data.map utf8Bytes).flatten

/-- Partition count of the harness (EnhancedFailoverTest.partitionCount, fixed to 3). -/
def partitionCount : Nat := 3

/-- getKeyPartition: first byte of SHA-256 of the key, modulo the partition count. -/
def getKeyPartition (key : String) : Nat :=
  (sha256 (stringBytes key)).headD 0 % partitionCount

/-! ### The outcome of an atomix map Get call -/

/-- Result of testMap.Get: an error, a nil entry, or an entry with a value. -/
inductive ReadResult where
  | err (msg : String)
  | nil
  | val (v : String)
deriving DecidableEq

/-! ### Linearizability test verification phase (concurrency test) -/

/-- The value written by a client at sequence position j: "client-i-seq-j". -/
def sequenceValue (clientID : String) (j : Nat) : String :=
  clientID ++ "-seq-" ++ toString j

/-- clientID of the i-th goroutine (zero-based index i, name "client-(i+1)"). -/
def clientIDString (i : Nat) : String :=
  "client-" ++ toString (i + 1)

/-- The sequence of values one client writes: client-…-seq-1 … client-…-seq-M. -/
def clientSequence (clientID : String) (opsPerClient : Nat) : List String :=
  (List.range' 1 opsPerClient).map (fun j => sequenceValue clientID j)

/-- expectedLastValues: per client, the last value of its sequence ("" if none). -/
def expectedLastValues (concurrentClients opsPerClient : Nat) : List String :=
  (List.range concurrentClients).map (fun i =>
    let seq := clientSequence (clientIDString i) opsPerClient
    if 0 < seq.length then seq.getLastD "" else "")

/-- Outcome of the linearizability verification phase: the consistency flag and,
on a value mismatch, the expected last-values reported in the diagnostic. -/
structure LinVerifyResult where
  linearizable : Bool
  finalValue : Option String
  diagnosticExpected : Option (List String)
deriving DecidableEq

/-- Verification phase of linearizabilityTest: read the final value; a read
error or nil entry fails the check; otherwise pass exactly when the final value
is one of the expected last writes, and on mismatch report the expected set. -/
def linearizabilityVerify (expected : List String) (read : ReadResult) : LinVerifyResult :=
  match read with
  | .err _ => { linearizable := false, finalValue := none, diagnosticExpected := none }
  | .nil => { linearizable := false, finalValue := none, diagnosticExpected := none }
  | .val finalValue =>
    if expected.contains finalValue then
      { linearizable := true, finalValue := some finalValue, diagnosticExpected := none }
    else
      { linearizable := false, finalValue := some finalValue,
        diagnosticExpected := some expected }

/-! ### Write durability test verification phase (concurrency test) -/

/-- One attempted write of the durability test, with its acknowledgement flag. -/
structure AcknowledgedWrite where
  clientID : String
  key : String
  value : String
  success : Bool
deriving DecidableEq

/-- Outcome of the durability verification phase: the read failed, or it was
checked against the write log with the acknowledged/total counts reported. -/
inductive DurVerifyResult where
  | readFailed
  | verified (acknowledged total : Nat) (valueMatched : Bool)
deriving DecidableEq

/-- Verification phase of writeDurabilityTest: a read error or nil entry fails
the check; otherwise count acknowledged writes and match the final value
against the values of acknowledged (Success) writes only. -/
def writeDurabilityVerify (writes : List AcknowledgedWrite) (read : ReadResult) :
    DurVerifyResult :=
  match read with
  | .err _ => .readFailed
  | .nil => .readFailed
  | .val finalValue =>
    .verified (writes.countP (·.success)) writes.length
      (writes.any (fun w => w.success && w.value == finalValue))

/-- The writeDurability tracker flag after the verification phase. -/
def durPass : DurVerifyResult → Bool
  | .readFailed => false
  | .verified _ _ matched => matched

/-! ### Leader tracking (enhanced failover test) -/

/-- LeaderInfo: the cached leadership snapshot for one partition. -/
structure LeaderInfo where
  partitionID : Int
  podName : String
  podIndex : Int
  term : Int
  state : String
  lastUpdate : Nat
deriving DecidableEq

/-- The leader cache, keyed by partition number. -/
abbrev Cache := Int → Option LeaderInfo

/-- Store one partition's snapshot in the cache. -/
def cacheSet (c : Cache) (k : Int) (v : LeaderInfo) : Cache :=
  fun k' => if k' = k then some v else c k'

/-- The entry written when a RaftGroup status carries no leader field. -/
def noLeaderEntry (partNum : Int) (now : Nat) : LeaderInfo :=
  { partitionID := partNum, podName := "", podIndex := 0, term := 0,
    state := "no-leader", lastUpdate := now }

/-- The leader object nested in a RaftGroup status. -/
structure LeaderObj where
  name : Option String
deriving DecidableEq

/-- The status object of a RaftGroup resource. -/
structure RaftStatus where
  leader : Option LeaderObj
  term : Option Int
  state : Option String
deriving DecidableEq

/-- One RaftGroup resource returned by the batched leadership query. -/
structure RaftGroupItem where
  name : String
  status : Option RaftStatus
deriving DecidableEq

/-- Ordinal pod index extracted from a leader name of the form
consensus-store-…-k, or -1 when the name does not follow the convention. -/
def parsePodIndex (leaderName : String) : Int :=
  if containsSub leaderName.data "consensus-store-".data then
    let parts := goSplit leaderName '-'
    if 4 ≤ parts.length then
      match atoi (parts.getD 3 "") with
      | some idx => idx
      | none => -1
    else -1
  else -1

/-- Processing of one RaftGroup item in updateLeaderInfo. none models the Go
runtime panic of indexing a name with fewer than three dash-separated parts;
some returns the cache after this item (possibly unchanged, when the item is
skipped by a continue). -/
def processItem (now : Nat) (c : Cache) (item : RaftGroupItem) : Option Cache :=
  match (goSplit item.name '-').get? 2 with
  | none => none
  | some partStr =>
    match atoi partStr with
    | none => some c
    | some partNum =>
      match item.status with
      | none => some c
      | some status =>
        match status.leader with
        | none => some (cacheSet c partNum (noLeaderEntry partNum now))
        | some leaderObj =>
          match leaderObj.name with
          | none => some c
          | some leaderName =>
            some (cacheSet c partNum
              { partitionID := partNum, podName := leaderName,
                podIndex := parsePodIndex leaderName,
                term := status.term.getD 0,
                state := status.state.getD "unknown",
                lastUpdate := now })

/-- Left-to-right processing of the listed RaftGroup items. -/
def updateItems (now : Nat) : List RaftGroupItem → Cache → Option Cache
  | [], c => some c
  | item :: rest, c =>
    match processItem now c item with
    | none => none
    | some c' => updateItems now rest c'

/-- Outcome of one updateLeaderInfo refresh. -/
inductive UpdateResult where
  | listFailed (err : String)
  | panicked
  | updated (c : Cache)

/-- updateLeaderInfo: on a failed batched query return the error; otherwise
process every item, skipping unparsable ones and marking partitions whose
status has no leader field as no-leader entries. -/
def updateLeaderInfo (query : Except String (List RaftGroupItem)) (now : Nat) (c : Cache) :
    UpdateResult :=
  match query with
  | .error e => .listFailed ("failed to list RaftGroups: " ++ e)
  | .ok items =>
    match updateItems now items c with
    | none => .panicked
    | some c' => .updated c'

/-! ### Failure injector (terminateLeaderPod) -/

/-- A pod deletion request issued against the Kubernetes API. -/
structure DeleteRequest where
  podName : String
  gracePeriodSeconds : Int
deriving DecidableEq

/-- Outcome of terminateLeaderPod. panicked models the Go runtime panic of
indexing a pod name with fewer than four dash-separated parts. -/
inductive TermResult where
  | noLeaderErr
  | panicked
  | parseErr
  | terminationFailedErr (req : DeleteRequest) (underlying : String)
  | ok (req : DeleteRequest)
deriving DecidableEq

/-- terminateLeaderPod: refuse when the snapshot has no pod name; otherwise
derive the zero-based pod ordinal from the captured leader name and issue a
zero-grace-period deletion, wrapping a platform failure. The platform argument
carries the result of the deletion call for the derived pod. -/
def terminateLeaderPod (leader : LeaderInfo)
    (platform : DeleteRequest → Except String Unit) : TermResult :=
  if leader.podName = "" then .noLeaderErr
  else
    match (goSplit leader.podName '-').get? 3 with
    | none => .panicked
    | some part =>
      match atoi part with
      | none => .parseErr
      | some podNum =>
        let req : DeleteRequest :=
          { podName := "consensus-store-" ++ toString (podNum - 1), gracePeriodSeconds := 0 }
        match platform req with
        | .ok _ => .ok req
        | .error e => .terminationFailedErr req e

/-- The deletion request a terminateLeaderPod outcome issued, if any. -/
def issuedRequest : TermResult → Option DeleteRequest
  | .noLeaderErr => none
  | .panicked => none
  | .parseErr => none
  | .terminationFailedErr req _ => some req
  | .ok req => some req

/-! ### Recovery detector (waitForLeaderElection) -/

/-- One poll of the leader cache after an updateLeaderInfo refresh: none when
the refresh errored, some none when the partition has no cache entry, and
some (some li) for a cached snapshot. -/
abbrev PollResult := Option (Option LeaderInfo)

/-- The overall recovery deadline in seconds (time.NewTimer(60 * time.Second)). -/
def recoveryDeadlineSeconds : Nat := 60

/-- Error surfaced by the recovery detector's wait loop. -/
inductive RecoveryError where
  | timeout (partitionID : Int) (elapsedSeconds : Nat)
deriving DecidableEq

/-- The trigger condition: a snapshot in Ready state with a strictly newer term. -/
def qualifies (originalTerm : Int) (l : LeaderInfo) : Bool :=
  l.state == "Ready" && originalTerm < l.term

/-- The stability re-check: same pod and term, still Ready. -/
def stillStable (leader reconfirmed : LeaderInfo) : Bool :=
  reconfirmed.state == "Ready" && reconfirmed.term == leader.term
    && reconfirmed.podName == leader.podName

/-- waitForLeaderElection over the sequence of polls the loop would observe
within its deadline: skip failed refreshes and absent entries; on a qualifying
snapshot re-poll after the settle sleep, return the re-polled snapshot when it
is identical, and keep waiting otherwise; time out when the polls within the
deadline are exhausted. -/
def waitForLeaderElection (partitionID : Int) (originalTerm : Int) :
    List PollResult → Except RecoveryError LeaderInfo
  | [] => .error (.timeout partitionID recoveryDeadlineSeconds)
  | none :: rest => waitForLeaderElection partitionID originalTerm rest
  | some none :: rest => waitForLeaderElection partitionID originalTerm rest
  | some (some leader) :: rest =>
    if qualifies originalTerm leader then
      match rest with
      | [] => .error (.timeout partitionID recoveryDeadlineSeconds)
      | none :: rest2 => waitForLeaderElection partitionID originalTerm rest2
      | some none :: rest2 => waitForLeaderElection partitionID originalTerm rest2
      | some (some reconfirmed) :: rest2 =>
        if stillStable leader reconfirmed then .ok reconfirmed
        else waitForLeaderElection partitionID originalTerm rest2
    else waitForLeaderElection partitionID originalTerm rest

/-! ### Sequence-gap detection (log analyzer) -/

/-- One write operation parsed from the log. -/
structure WriteOperation where
  key : String
  value : String
  success : Bool
  seqNum : Int
deriving DecidableEq

/-- The missing numbers strictly between a and b (the inner append loop). -/
def gapRange (a b : Int) : List Int :=
  (List.range (b - (a + 1)).toNat).map (fun (i : Nat) => a + 1 + (i : Int))

/-- Scan of the sorted sequence numbers: flag every number missing between
adjacent entries that differ by more than one. -/
def collectGaps : List Int → List Int
  | a :: b :: rest => (if 1 < b - a then gapRange a b else []) ++ collectGaps (b :: rest)
  | _ => []

/-- detectSequenceGaps: collect the sequence numbers of successful writes,
sort them, and report every missing number between adjacent entries. -/
def detectSequenceGaps (writes : List WriteOperation) : List Int :=
  let seqNums := (writes.filter (·.success)).map (·.seqNum)
  collectGaps (List.insertionSort (· ≤ ·) seqNums)

/-! ### Experiment-4 result analyzer (parseLogFile / analyzeResults) -/

/-- One parsed test of the experiment-4 analyzer. -/
structure E4TestResult where
  testID : String
  scenario : String
  success : Bool
  duration : Int
  recoveryTime : Int
  writeTime : Nat
  failureTime : Int
deriving DecidableEq

/-- One log line, as the analyzer's four regexes see it: each field holds the
captured groups when the corresponding pattern matches the line. -/
structure E4LogLine where
  timestamp : Nat
  startMatch : Option (String × String)
  writeCompleteMatch : Option String
  recoveryMatch : Option (String × String)
  successMatch : Option (String × String)

/-- The analyzer's in-progress test map (Go map of pointers, keyed by testID). -/
abbrev TestMap := String → Option E4TestResult

/-- Update one test map entry. -/
def mapSet (m : TestMap) (k : String) (v : E4TestResult) : TestMap :=
  fun k' => if k' = k then some v else m k'

/-- Processing of one log line: register PRECISION_TEST_START lines, record
the write/recovery timestamps, and on a PRECISION_SUCCESS line mark the test
successful and append it to the results. parseDur abstracts the analyzer's
floating-point duration parser (nanoseconds). -/
def processLine (parseDur : String → Int) (st : TestMap × List E4TestResult)
    (line : E4LogLine) : TestMap × List E4TestResult :=
  let m0 := st.1
  let results := st.2
  let m1 := match line.startMatch with
    | some (id, sc) =>
      mapSet m0 id { testID := id, scenario := sc, success := false, duration := 0,
                     recoveryTime := 0, writeTime := 0, failureTime := 0 }
    | none => m0
  let m2 := match line.writeCompleteMatch with
    | some id =>
      match m1 id with
      | some r => mapSet m1 id { r with writeTime := line.timestamp }
      | none => m1
    | none => m1
  let m3 := match line.recoveryMatch with
    | some (id, recStr) =>
      match m2 id with
      | some r => mapSet m2 id { r with failureTime := (line.timestamp : Int) - parseDur recStr,
                                        recoveryTime := parseDur recStr }
      | none => m2
    | none => m2
  match line.successMatch with
  | some (id, durStr) =>
    match m3 id with
    | some r =>
      let r' := { r with success := true, duration := parseDur durStr }
      (mapSet m3 id r', results ++ [r'])
    | none => (m3, results)
  | none => (m3, results)

/-- parseLogFile: fold the analyzer's line processing over the log, returning
the emitted test results. -/
def parseLogFile (parseDur : String → Int) (lines : List E4LogLine) : List E4TestResult :=
  (lines.foldl (processLine parseDur) (fun _ => none, [])).2

/-- The results belonging to one scenario group of analyzeResults. -/
def scenarioResults (results : List E4TestResult) (s : String) : List E4TestResult :=
  results.filter (fun r => r.scenario == s)

/-- The number of successful results in a group. -/
def successCount (rs : List E4TestResult) : Nat := rs.countP (·.success)

/-- Per-scenario success rate of analyzeResults, as an exact rational. -/
def scenarioSuccessRate (results : List E4TestResult) (s : String) : ℚ :=
  ((successCount (scenarioResults results s) : ℚ) / ((scenarioResults results s).length : ℚ)) * 100

/-- Overall success rate of generateReport, as an exact rational. -/
def overallSuccessRate (results : List E4TestResult) : ℚ :=
  ((successCount results : ℚ) / (results.length : ℚ)) * 100

/-! ### Sanity checks of the SHA-256 embedding against the standard vectors -/

set_option maxRecDepth 40000

/-- FIPS 180 test vector: the SHA-256 digest of "abc". -/
theorem sha256_vector_abc :
    sha256 (stringBytes "abc") =
      [0xba, 0x78, 0x16, 0xbf, 0x8f, 0x01, 0xcf, 0xea, 0x41, 0x41, 0x40, 0xde, 0x5d, 0xae,
       0x22, 0x23, 0xb0, 0x03, 0x61, 0xa3, 0x96, 0x17, 0x7a, 0x9c, 0xb4, 0x10, 0xff, 0x61,
       0xf2, 0x00, 0x15, 0xad] := by decide

/-- Test vector: the SHA-256 digest of the empty string. -/
theorem sha256_vector_empty :
    sha256 (stringBytes "") =
      [0xe3, 0xb0, 0xc4, 0x42, 0x98, 0xfc, 0x1c, 0x14, 0x9a, 0xfb, 0xf4, 0xc8, 0x99, 0x6f,
       0xb9, 0x24, 0x27, 0xae, 0x41, 0xe4, 0x64, 0x9b, 0x93, 0x4c, 0xa4, 0x95, 0x99, 0x1b,
       0x78, 0x52, 0xb8, 0x55] := by decide

/-! ### C6: partition mapping -/

/-- C6: getKeyPartition is a pure function of the key alone (equal inputs give
equal outputs, across repeated calls and processes), it is the first byte of
the SHA-256 hash of the key reduced modulo the partition count, and its result
always lies in the range from 0 to partitionCount exclusive. -/
theorem claim_C6 (k k' : String) (h : k = k') :
    getKeyPartition k = getKeyPartition k'
    ∧ getKeyPartition k = (sha256 (stringBytes k)).headD 0 % partitionCount
    ∧ getKeyPartition k < partitionCount := by
  subst h
  exact ⟨rfl, rfl, Nat.mod_lt _ (by decide)⟩

/-- Witness for C6 at the connectivity-test key and an arbitrary key. -/
theorem claim_C6_witness :
    getKeyPartition "connectivity-test" < partitionCount
    ∧ getKeyPartition "abc" = getKeyPartition "abc" :=
  ⟨(claim_C6 "connectivity-test" "connectivity-test" rfl).2.2,
   (claim_C6 "abc" "abc" rfl).1⟩

/-! ### C4 and C5: failure injector -/

/-- C4: for a snapshot with a non-empty pod name following the naming
convention, terminateLeaderPod issues a deletion request with zero grace
period (forceful) against the pod whose name is derived from the snapshot's
captured leader identity via its ordinal index (one less than the member
number parsed from the name). -/
theorem claim_C4 (leader : LeaderInfo) (platform : DeleteRequest → Except String Unit)
    (part : String) (podNum : Int)
    (hne : leader.podName ≠ "")
    (hpart : (goSplit leader.podName '-').get? 3 = some part)
    (hnum : atoi part = some podNum) :
    issuedRequest (terminateLeaderPod leader platform) =
      some { podName := "consensus-store-" ++ toString (podNum - 1), gracePeriodSeconds := 0 } := by
  unfold terminateLeaderPod
  rw [if_neg hne, hpart]
  dsimp only
  rw [hnum]
  dsimp only
  cases platform { podName := "consensus-store-" ++ toString (podNum - 1),
                   gracePeriodSeconds := 0 } <;> rfl

/-- Witness for C4 at the leader name consensus-store-1-2 (derived target
consensus-store-1). -/
theorem claim_C4_witness :
    issuedRequest (terminateLeaderPod
        { partitionID := 1, podName := "consensus-store-1-2", podIndex := 2, term := 4,
          state := "Ready", lastUpdate := 0 }
        (fun _ => .ok ())) =
      some { podName := "consensus-store-" ++ toString ((2 : Int) - 1), gracePeriodSeconds := 0 } :=
  claim_C4 _ _ "2" 2 (by decide) (by decide) (by decide)

/-- C5: with an empty pod name, terminateLeaderPod returns the no-leader error
and issues no termination request; with a convention-following non-empty name,
a failing platform deletion is returned as a termination-failure error
wrapping the platform error. -/
theorem claim_C5 :
    (∀ (leader : LeaderInfo) (platform : DeleteRequest → Except String Unit),
       leader.podName = "" →
       terminateLeaderPod leader platform = .noLeaderErr
       ∧ issuedRequest (terminateLeaderPod leader platform) = none)
    ∧ (∀ (leader : LeaderInfo) (platform : DeleteRequest → Except String Unit)
         (part : String) (podNum : Int) (e : String),
       leader.podName ≠ "" →
       (goSplit leader.podName '-').get? 3 = some part →
       atoi part = some podNum →
       platform { podName := "consensus-store-" ++ toString (podNum - 1),
                  gracePeriodSeconds := 0 } = .error e →
       terminateLeaderPod leader platform =
         .terminationFailedErr
           { podName := "consensus-store-" ++ toString (podNum - 1), gracePeriodSeconds := 0 }
           e) := by
  constructor
  · intro leader platform hempty
    unfold terminateLeaderPod
    rw [if_pos hempty]
    exact ⟨rfl, rfl⟩
  · intro leader platform part podNum e hne hpart hnum hplat
    unfold terminateLeaderPod
    rw [if_neg hne, hpart]
    dsimp only
    rw [hnum]
    dsimp only
    rw [hplat]

/-- Witness for C5: empty pod name refused; a failing deletion is wrapped. -/
theorem claim_C5_witness :
    terminateLeaderPod
        { partitionID := 0, podName := "", podIndex := 0, term := 0, state := "no-leader",
          lastUpdate := 0 } (fun _ => .ok ()) = .noLeaderErr
    ∧ terminateLeaderPod
        { partitionID := 1, podName := "consensus-store-1-2", podIndex := 2, term := 4,
          state := "Ready", lastUpdate := 0 } (fun _ => .error "connection refused") =
        .terminationFailedErr
          { podName := "consensus-store-" ++ toString ((2 : Int) - 1), gracePeriodSeconds := 0 }
          "connection refused" :=
  ⟨(claim_C5.1 _ (fun _ => .ok ()) rfl).1,
   claim_C5.2 _ _ "2" 2 "connection refused" (by decide) (by decide) (by decide) rfl⟩

/-! ### C2: write durability verification -/

/-- C2: the durability verdict passes exactly when the final read returns a
value equal to the value of at least one acknowledged (successful) write;
errored writes are excluded from the match; for a successful read the
acknowledged and total write counts are reported; a read error or nil entry
fails the check. -/
theorem claim_C2 (writes : List AcknowledgedWrite) (read : ReadResult) :
    (durPass (writeDurabilityVerify writes read) = true ↔
       ∃ v, read = .val v ∧ ∃ w ∈ writes, w.success = true ∧ w.value = v)
    ∧ (∀ v, read = .val v →
        writeDurabilityVerify writes read =
          .verified (writes.countP (·.success)) writes.length
            (writes.any (fun w => w.success && w.value == v)))
    ∧ ((read = .nil ∨ ∃ e, read = .err e) → writeDurabilityVerify writes read = .readFailed) := by
  refine ⟨?_, ?_, ?_⟩
  · cases read with
    | err e => simp [writeDurabilityVerify, durPass]
    | nil => simp [writeDurabilityVerify, durPass]
    | val v =>
      simp only [writeDurabilityVerify, durPass, List.any_eq_true, Bool.and_eq_true, beq_iff_eq]
      constructor
      · rintro ⟨w, hw, hs, hv⟩
        exact ⟨v, rfl, w, hw, hs, hv⟩
      · rintro ⟨v', hv', w, hw, hs, hv⟩
        cases hv'
        exact ⟨w, hw, hs, hv⟩
  · intro v hv
    subst hv
    rfl
  · rintro (h | ⟨e, h⟩) <;> subst h <;> rfl

/-- Witness for C2: the final value b matches the acknowledged write of b, and
a nil read fails the check. -/
theorem claim_C2_witness :
    durPass (writeDurabilityVerify
        [{ clientID := "durability-client-1", key := "shared-durability-key", value := "a",
           success := false },
         { clientID := "durability-client-2", key := "shared-durability-key", value := "b",
           success := true }] (.val "b")) = true
    ∧ writeDurabilityVerify ([] : List AcknowledgedWrite) .nil = .readFailed := by
  constructor
  · exact (claim_C2 _ (.val "b")).1.mpr
      ⟨"b", rfl,
       { clientID := "durability-client-2", key := "shared-durability-key", value := "b",
         success := true }, by simp, rfl, rfl⟩
  · exact (claim_C2 [] .nil).2.2 (Or.inl rfl)

/-! ### C1: linearizability verification -/

/-- The last value of a client's sequence of at least one write. -/
theorem clientSequence_getLast (cid : String) (m : Nat) :
    (clientSequence cid (m + 1)).getLastD "" = sequenceValue cid (m + 1) := by
  unfold clientSequence
  rw [List.range'_concat, List.map_append]
  simp only [List.map_cons, List.map_nil, List.getLastD_concat]
  have h1 : 1 + 1 * m = m + 1 := by omega
  rw [h1]

/-- With at least one operation per client, the expected last values are
exactly the last sequence values of the clients. -/
theorem expectedLastValues_eq (nc m : Nat) :
    expectedLastValues nc (m + 1) =
      (List.range nc).map (fun i => sequenceValue (clientIDString i) (m + 1)) := by
  unfold expectedLastValues
  refine List.map_congr_left ?_
  intro i _
  dsimp only
  rw [if_pos (by simp [clientSequence]), clientSequence_getLast]

/-- C1: the linearizability verdict passes exactly when the final read returns
a value belonging to the expected last writes; a read error or nil entry fails
the verdict outright; on a value mismatch the full expected set is reported in
the diagnostic; and with at least one operation per client, the expected set
consists of each client's last written sequence value. -/
theorem claim_C1 (expected : List String) (read : ReadResult)
    (concurrentClients opsPerClient : Nat) (hops : 1 ≤ opsPerClient) :
    ((linearizabilityVerify expected read).linearizable = true ↔
       ∃ v, read = .val v ∧ v ∈ expected)
    ∧ (∀ e, read = .err e → (linearizabilityVerify expected read).linearizable = false)
    ∧ (read = .nil → (linearizabilityVerify expected read).linearizable = false)
    ∧ (∀ v, read = .val v → v ∉ expected →
        (linearizabilityVerify expected read).diagnosticExpected = some expected)
    ∧ expectedLastValues concurrentClients opsPerClient =
        (List.range concurrentClients).map
          (fun i => sequenceValue (clientIDString i) opsPerClient) := by
  obtain ⟨m, rfl⟩ : ∃ m, opsPerClient = m + 1 := ⟨opsPerClient - 1, by omega⟩
  refine ⟨?_, ?_, ?_, ?_, expectedLastValues_eq concurrentClients m⟩
  · cases read with
    | err e => simp [linearizabilityVerify]
    | nil => simp [linearizabilityVerify]
    | val v =>
      by_cases h : v ∈ expected
      · simp [linearizabilityVerify, h]
      · simp [linearizabilityVerify, h]
  · intro e he
    subst he
    rfl
  · intro hn
    subst hn
    rfl
  · intro v hv hnm
    subst hv
    simp [linearizabilityVerify, hnm]

/-- Witness for C1 at the spec's literal scenario: three clients, three
operations each; final value client-2-seq-3 passes, client-2-seq-2 reports the
expected set. -/
theorem claim_C1_witness :
    ((linearizabilityVerify (expectedLastValues 3 3) (.val "client-2-seq-3")).linearizable = true ↔
       ∃ v, ReadResult.val "client-2-seq-3" = .val v ∧ v ∈ expectedLastValues 3 3)
    ∧ expectedLastValues 3 3 =
        (List.range 3).map (fun i => sequenceValue (clientIDString i) 3) :=
  ⟨(claim_C1 (expectedLastValues 3 3) (.val "client-2-seq-3") 3 3 (by decide)).1,
   (claim_C1 (expectedLastValues 3 3) (.val "client-2-seq-3") 3 3 (by decide)).2.2.2.2⟩

/-! ### C9: leader tracker refresh semantics -/

/-- A RaftGroup item whose name splits into at least three parts is processed
without a panic (possibly skipped, never aborting the refresh). -/
theorem processItem_isSome (now : Nat) (c : Cache) (item : RaftGroupItem)
    (h : ((goSplit item.name '-').get? 2).isSome) :
    ∃ c', processItem now c item = some c' := by
  obtain ⟨s, hs⟩ := Option.isSome_iff_exists.mp h
  unfold processItem
  rw [hs]
  dsimp only
  cases atoi s with
  | none => exact ⟨c, rfl⟩
  | some pn =>
    dsimp only
    cases item.status with
    | none => exact ⟨c, rfl⟩
    | some st =>
      dsimp only
      cases st.leader with
      | none => exact ⟨_, rfl⟩
      | some lo =>
        dsimp only
        cases lo.name with
        | none => exact ⟨c, rfl⟩
        | some n => exact ⟨_, rfl⟩

/-- Processing a list of well-named RaftGroup items never panics. -/
theorem updateItems_isSome (now : Nat) : ∀ (items : List RaftGroupItem) (c : Cache),
    (∀ item ∈ items, ((goSplit item.name '-').get? 2).isSome) →
    ∃ c', updateItems now items c = some c' := by
  intro items
  induction items with
  | nil => exact fun c _ => ⟨c, rfl⟩
  | cons item rest ih =>
    intro c h
    obtain ⟨c1, hc1⟩ := processItem_isSome now c item (h item (by simp))
    unfold updateItems
    rw [hc1]
    exact ih c1 (fun it hit => h it (by simp [hit]))

/-- C9: updateLeaderInfo returns an error exactly for a failed batched query;
with the query succeeding it processes every (well-named) item and replaces
the cache without aborting; a partition whose status lacks the leader field is
marked with a no-leader entry while the remaining items are still processed;
and a failed refresh inside the recovery wait loop is skipped and retried on
the next poll rather than being fatal. -/
theorem claim_C9 :
    (∀ (e : String) (now : Nat) (c : Cache),
       updateLeaderInfo (.error e) now c = .listFailed ("failed to list RaftGroups: " ++ e))
    ∧ (∀ (items : List RaftGroupItem) (now : Nat) (c : Cache),
       (∀ item ∈ items, ((goSplit item.name '-').get? 2).isSome) →
       ∃ c', updateLeaderInfo (.ok items) now c = .updated c')
    ∧ (∀ (item : RaftGroupItem) (rest : List RaftGroupItem) (now : Nat) (c : Cache)
         (partStr : String) (partNum : Int) (st : RaftStatus),
       (goSplit item.name '-').get? 2 = some partStr →
       atoi partStr = some partNum →
       item.status = some st → st.leader = none →
       updateLeaderInfo (.ok (item :: rest)) now c =
         updateLeaderInfo (.ok rest) now (cacheSet c partNum (noLeaderEntry partNum now)))
    ∧ (∀ (pid orig : Int) (rest : List PollResult),
       waitForLeaderElection pid orig (none :: rest) = waitForLeaderElection pid orig rest) := by
  refine ⟨fun e now c => rfl, ?_, ?_, fun pid orig rest => rfl⟩
  · intro items now c h
    obtain ⟨c', hc'⟩ := updateItems_isSome now items c h
    refine ⟨c', ?_⟩
    unfold updateLeaderInfo
    dsimp only
    rw [hc']
  · intro item rest now c partStr partNum st h1 h2 h3 h4
    have hpi : processItem now c item = some (cacheSet c partNum (noLeaderEntry partNum now)) := by
      unfold processItem
      rw [h1]
      dsimp only
      rw [h2]
      dsimp only
      rw [h3]
      dsimp only
      rw [h4]
    have hui : updateItems now (item :: rest) c =
        updateItems now rest (cacheSet c partNum (noLeaderEntry partNum now)) := by
      conv_lhs => rw [updateItems]
      rw [hpi]
    unfold updateLeaderInfo
    dsimp only
    rw [hui]

/-- Witness for C9: a two-item query with the first item leaderless marks
partition 1 as no-leader and still processes partition 2. -/
theorem claim_C9_witness :
    updateLeaderInfo
        (.ok [{ name := "consensus-store-1",
                status := some { leader := none, term := some 3, state := some "Ready" } },
              { name := "consensus-store-2",
                status := some { leader := some { name := some "consensus-store-2-1" },
                                 term := some 7, state := some "Ready" } }]) 5 (fun _ => none) =
      updateLeaderInfo
        (.ok [{ name := "consensus-store-2",
                status := some { leader := some { name := some "consensus-store-2-1" },
                                 term := some 7, state := some "Ready" } }]) 5
        (cacheSet (fun _ => none) 1 (noLeaderEntry 1 5))
    ∧ updateLeaderInfo (.error "etcd unavailable") 0 (fun _ => none) =
        .listFailed ("failed to list RaftGroups: " ++ "etcd unavailable") :=
  ⟨claim_C9.2.2.1 _ _ 5 (fun _ => none) "1" 1
      { leader := none, term := some 3, state := some "Ready" } (by decide) (by decide) rfl rfl,
   claim_C9.1 "etcd unavailable" 0 (fun _ => none)⟩

/-! ### C8: recovery timeout -/

/-- A poll sequence containing no qualifying snapshot drives the wait loop to
the timeout error. -/
theorem wfle_timeout : ∀ (trace : List PollResult) (pid orig : Int),
    (∀ li : LeaderInfo, some (some li) ∈ trace → qualifies orig li = false) →
    waitForLeaderElection pid orig trace = .error (.timeout pid recoveryDeadlineSeconds) := by
  intro trace
  induction trace with
  | nil => intro pid orig _; rfl
  | cons p rest ih =>
    intro pid orig h
    have htail : ∀ li : LeaderInfo, some (some li) ∈ rest → qualifies orig li = false :=
      fun li hm => h li (by simp [hm])
    match p with
    | none => exact ih pid orig htail
    | some none => exact ih pid orig htail
    | some (some li) =>
      have hq := h li (by simp)
      show waitForLeaderElection pid orig (some (some li) :: rest) = _
      unfold waitForLeaderElection
      rw [hq]
      exact ih pid orig htail

/-- C8: when no qualifying snapshot (Ready with a strictly newer term) appears
among the polls available within the deadline, the wait loop terminates with
the timeout error carrying the 60-second deadline (within the spec's 45-60
second range) and the partition, rather than returning a leader. -/
theorem claim_C8 (pid orig : Int) (trace : List PollResult)
    (h : ∀ li : LeaderInfo, some (some li) ∈ trace → qualifies orig li = false) :
    waitForLeaderElection pid orig trace = .error (.timeout pid recoveryDeadlineSeconds)
    ∧ 45 ≤ recoveryDeadlineSeconds ∧ recoveryDeadlineSeconds ≤ 60 :=
  ⟨wfle_timeout trace pid orig h, by decide, by decide⟩

/-- Witness for C8: a stale snapshot (same term, Ready) and a failed refresh
never satisfy the wait, which times out. -/
theorem claim_C8_witness :
    waitForLeaderElection 1 5
        [none, some (some { partitionID := 1, podName := "consensus-store-1-2", podIndex := 2,
                            term := 5, state := "Ready", lastUpdate := 0 })] =
      .error (.timeout 1 recoveryDeadlineSeconds)
    ∧ 45 ≤ recoveryDeadlineSeconds ∧ recoveryDeadlineSeconds ≤ 60 :=
  claim_C8 1 5 _ (by
    intro li hm
    simp only [List.mem_cons, List.not_mem_nil, or_false, reduceCtorEq, false_or] at hm
    rw [Option.some.injEq, Option.some.injEq] at hm
    subst hm
    decide)

/-! ### C3: recovery detector postcondition -/

/-- Postcondition of a successful recovery: the returned snapshot is Ready
with a term strictly above the original, and it is the re-poll of an
immediately preceding qualifying trigger snapshot with identical pod name,
term and Ready state. -/
theorem wfle_ok (pid orig : Int) (trace : List PollResult) :
    ∀ li : LeaderInfo, waitForLeaderElection pid orig trace = .ok li →
    li.state = "Ready" ∧ orig < li.term ∧
    ∃ pre rest t, trace = pre ++ some (some t) :: some (some li) :: rest ∧
      t.state = "Ready" ∧ orig < t.term ∧ li.term = t.term ∧ li.podName = t.podName := by
  induction trace using waitForLeaderElection.induct pid orig with
  | case1 => intro li h; exact absurd h (by simp [waitForLeaderElection])
  | case2 rest ih =>
    intro li h
    obtain ⟨h1, h2, pre, rest', t, hdec, ht⟩ := ih li h
    exact ⟨h1, h2, none :: pre, rest', t, by simp [hdec], ht⟩
  | case3 rest ih =>
    intro li h
    obtain ⟨h1, h2, pre, rest', t, hdec, ht⟩ := ih li h
    exact ⟨h1, h2, some none :: pre, rest', t, by simp [hdec], ht⟩
  | case4 l hq =>
    intro li h
    exact absurd h (by simp [waitForLeaderElection, hq])
  | case5 l hq rest2 ih =>
    intro li h
    simp only [waitForLeaderElection, hq, if_true] at h
    obtain ⟨h1, h2, pre, rest', t, hdec, ht⟩ := ih li h
    exact ⟨h1, h2, some (some l) :: none :: pre, rest', t, by simp [hdec], ht⟩
  | case6 l hq rest2 ih =>
    intro li h
    simp only [waitForLeaderElection, hq, if_true] at h
    obtain ⟨h1, h2, pre, rest', t, hdec, ht⟩ := ih li h
    exact ⟨h1, h2, some (some l) :: some none :: pre, rest', t, by simp [hdec], ht⟩
  | case7 l hq r rest2 hs =>
    intro li h
    simp only [waitForLeaderElection, hq, hs, if_true] at h
    obtain rfl : r = li := by injection h
    simp only [qualifies, Bool.and_eq_true, beq_iff_eq, decide_eq_true_eq] at hq
    simp only [stillStable, Bool.and_eq_true, beq_iff_eq] at hs
    refine ⟨hs.1.1, ?_, [], rest2, l, rfl, hq.1, hq.2, hs.1.2, hs.2⟩
    rw [hs.1.2]
    exact hq.2
  | case8 l hq r rest2 hs ih =>
    intro li h
    rw [Bool.not_eq_true] at hs
    simp only [waitForLeaderElection, hq, if_true, hs, Bool.false_eq_true, if_false] at h
    obtain ⟨h1, h2, pre, rest', t, hdec, ht⟩ := ih li h
    exact ⟨h1, h2, some (some l) :: some (some r) :: pre, rest', t, by simp [hdec], ht⟩
  | case9 l rest ihq ih =>
    intro li h
    rw [Bool.not_eq_true] at ihq
    rw [waitForLeaderElection.eq_def] at h
    dsimp only at h
    rw [ihq] at h
    simp only [Bool.false_eq_true, if_false] at h
    obtain ⟨h1, h2, pre, rest', t, hdec, ht⟩ := ih li h
    exact ⟨h1, h2, some (some l) :: pre, rest', t, by simp [hdec], ht⟩

/-- C3: every successfully returned recovery snapshot is Ready with a term
strictly greater than the original, and is the settle-interval re-poll
identical (pod name, term, Ready state) to the qualifying snapshot that
triggered the transition; when the re-polled snapshot differs, the detector
keeps waiting on the remaining polls instead of returning. -/
theorem claim_C3 :
    (∀ (pid orig : Int) (trace : List PollResult) (li : LeaderInfo),
       waitForLeaderElection pid orig trace = .ok li →
       li.state = "Ready" ∧ orig < li.term ∧
       ∃ pre rest t, trace = pre ++ some (some t) :: some (some li) :: rest ∧
         t.state = "Ready" ∧ orig < t.term ∧ li.term = t.term ∧ li.podName = t.podName)
    ∧ (∀ (pid orig : Int) (t r : LeaderInfo) (rest : List PollResult),
       qualifies orig t = true → stillStable t r = false →
       waitForLeaderElection pid orig (some (some t) :: some (some r) :: rest) =
         waitForLeaderElection pid orig rest) := by
  constructor
  · intro pid orig trace li h
    exact wfle_ok pid orig trace li h
  · intro pid orig t r rest hq hs
    simp only [waitForLeaderElection, hq, if_true, hs, Bool.false_eq_true, if_false]

/-- A stable post-failure leader snapshot used by the C3 witness. -/
def demoLeaderReady : LeaderInfo :=
  { partitionID := 1, podName := "consensus-store-1-0", podIndex := 0, term := 6,
    state := "Ready", lastUpdate := 10 }

/-- A churning snapshot (different term) used by the C3 witness. -/
def demoLeaderChurn : LeaderInfo :=
  { partitionID := 1, podName := "consensus-store-1-0", podIndex := 0, term := 7,
    state := "Ready", lastUpdate := 11 }

/-- Witness for C3: a qualifying snapshot reconfirmed identically is returned
Ready with a newer term; a differing re-poll keeps the loop waiting. -/
theorem claim_C3_witness :
    (demoLeaderReady.state = "Ready" ∧ (5 : Int) < demoLeaderReady.term ∧
      ∃ pre rest t,
        ([some (some demoLeaderReady), some (some demoLeaderReady)] : List PollResult) =
          pre ++ some (some t) :: some (some demoLeaderReady) :: rest ∧
        t.state = "Ready" ∧ (5 : Int) < t.term ∧ demoLeaderReady.term = t.term ∧
        demoLeaderReady.podName = t.podName)
    ∧ waitForLeaderElection 1 5 [some (some demoLeaderReady), some (some demoLeaderChurn)] =
        waitForLeaderElection 1 5 [] :=
  ⟨claim_C3.1 1 5 [some (some demoLeaderReady), some (some demoLeaderReady)] demoLeaderReady rfl,
   claim_C3.2 1 5 demoLeaderReady demoLeaderChurn [] (by decide) (by decide)⟩

/-! ### C7: sequence-gap detection -/

/-- The gap scan reports nothing over a list whose adjacent entries never
differ by more than one. -/
theorem collectGaps_chain : ∀ l : List Int,
    l.Chain' (fun a b => ¬ 1 < b - a) → collectGaps l = [] := by
  intro l
  induction l with
  | nil => intro _; rfl
  | cons a t ih =>
    cases t with
    | nil => intro _; rfl
    | cons b rest =>
      intro h
      rw [List.chain'_cons] at h
      show (if 1 < b - a then gapRange a b else []) ++ collectGaps (b :: rest) = []
      rw [if_neg h.1, List.nil_append]
      exact ih h.2

/-- Consecutive integers cast from a contiguous natural range differ by one. -/
theorem chain_range_cast : ∀ (n s : Nat),
    (((List.range' s n).map (fun (n : Nat) => (n : Int))).Chain' (fun a b => ¬ 1 < b - a)) := by
  intro n
  induction n with
  | zero => intro s; simp
  | succ m ih =>
    intro s
    rw [List.range'_succ, List.map_cons]
    cases m with
    | zero => simp
    | succ m' =>
      rw [List.chain'_cons']
      refine ⟨?_, ih (s + 1)⟩
      intro h hh
      rw [List.range'_succ, List.map_cons, List.head?_cons] at hh
      obtain rfl : ((s + 1 : Nat) : Int) = h := by injection hh
      omega

/-- A gap-free all-successful stream seq-1..seq-N yields an empty gap list. -/
theorem detectSequenceGaps_complete (N : Nat) (writes : List WriteOperation)
    (hseq : writes.map (fun w => w.seqNum) = (List.range' 1 N).map (fun (n : Nat) => (n : Int)))
    (hsucc : ∀ w ∈ writes, w.success = true) :
    detectSequenceGaps writes = [] := by
  show collectGaps (List.insertionSort (· ≤ ·) ((writes.filter (·.success)).map (·.seqNum))) = []
  have hfilter : writes.filter (·.success) = writes := List.filter_eq_self.mpr hsucc
  rw [hfilter, hseq]
  have hsorted : List.Sorted (· ≤ ·) ((List.range' 1 N).map (fun (n : Nat) => (n : Int))) := by
    refine List.Pairwise.map (fun (n : Nat) => (n : Int)) ?_ (List.pairwise_lt_range' 1 N)
    intro a b hab
    dsimp only
    omega
  rw [List.Sorted.insertionSort_eq hsorted]
  exact collectGaps_chain _ (chain_range_cast N 1)

/-- In a sorted list, a number absent from the list but strictly between two
members is reported by the gap scan. -/
theorem mem_collectGaps : ∀ (l : List Int), l.Sorted (· ≤ ·) →
    ∀ (a b m : Int), a ∈ l → b ∈ l → a < m → m < b → m ∉ l → m ∈ collectGaps l := by
  intro l
  induction l with
  | nil => intro _ a b m ha; exact absurd ha (List.not_mem_nil a)
  | cons x t ih =>
    cases t with
    | nil =>
      intro _ a b m ha hb ham hmb _
      rw [List.mem_singleton] at ha hb
      subst ha; subst hb
      omega
    | cons y rest =>
      intro hsort a b m ha hb ham hmb hnm
      rw [List.sorted_cons] at hsort
      have hmy : m ≠ y := fun hh => hnm (by simp [hh])
      show m ∈ (if 1 < y - x then gapRange x y else []) ++ collectGaps (y :: rest)
      rcases lt_or_gt_of_ne hmy with hlt | hgt
      · have hax : a = x := by
          rcases List.mem_cons.mp ha with h | h
          · exact h
          · exfalso
            have hy_le_a : y ≤ a := by
              rcases List.mem_cons.mp h with h' | h'
              · omega
              · exact ((List.sorted_cons.mp hsort.2).1 a h')
            omega
        rw [if_pos (by omega)]
        apply List.mem_append_left
        unfold gapRange
        rw [List.mem_map]
        refine ⟨(m - (x + 1)).toNat, ?_, ?_⟩
        · rw [List.mem_range]
          omega
        · omega
      · have hbt : b ∈ y :: rest := by
          rcases List.mem_cons.mp hb with h | h
          · exfalso
            have : x ≤ y := hsort.1 y (by simp)
            omega
          · exact h
        apply List.mem_append_right
        refine ih hsort.2 y b m (by simp) hbt hgt hmb ?_
        intro hmem
        exact hnm (List.mem_cons.mpr (Or.inr hmem))

/-- Every sequence number missing between two successful writes is flagged. -/
theorem detectSequenceGaps_flags (writes : List WriteOperation) (m : Int)
    (hlow : ∃ w ∈ writes, w.success = true ∧ w.seqNum < m)
    (hhigh : ∃ w ∈ writes, w.success = true ∧ m < w.seqNum)
    (hmiss : ∀ w ∈ writes, w.success = true → w.seqNum ≠ m) :
    m ∈ detectSequenceGaps writes := by
  show m ∈ collectGaps (List.insertionSort (· ≤ ·) ((writes.filter (·.success)).map (·.seqNum)))
  set seqNums := (writes.filter (·.success)).map (·.seqNum) with hseq
  have hperm := List.perm_insertionSort (· ≤ ·) seqNums
  have hsorted : List.Sorted (· ≤ ·) (List.insertionSort (· ≤ ·) seqNums) :=
    List.sorted_insertionSort (· ≤ ·) seqNums
  obtain ⟨wa, hwa, hsa, hma⟩ := hlow
  obtain ⟨wb, hwb, hsb, hmb⟩ := hhigh
  have hamem : wa.seqNum ∈ List.insertionSort (· ≤ ·) seqNums := by
    rw [hperm.mem_iff, hseq]
    exact List.mem_map_of_mem _ (List.mem_filter.mpr ⟨hwa, by simp [hsa]⟩)
  have hbmem : wb.seqNum ∈ List.insertionSort (· ≤ ·) seqNums := by
    rw [hperm.mem_iff, hseq]
    exact List.mem_map_of_mem _ (List.mem_filter.mpr ⟨hwb, by simp [hsb]⟩)
  have hnm : m ∉ List.insertionSort (· ≤ ·) seqNums := by
    rw [hperm.mem_iff, hseq]
    intro hmem
    obtain ⟨w, hw, hwm⟩ := List.mem_map.mp hmem
    have := List.mem_filter.mp hw
    exact hmiss w this.1 (by simpa using this.2) hwm
  exact mem_collectGaps _ hsorted wa.seqNum wb.seqNum m hamem hbmem hma hmb hnm

/-- C7: a monotonically numbered write stream seq-1..seq-N whose Puts all
succeed produces an empty gap list, and every sequence number missing between
two successful writes' numbers is flagged in the gap list. -/
theorem claim_C7 :
    (∀ (N : Nat) (writes : List WriteOperation),
       writes.map (fun w => w.seqNum) = (List.range' 1 N).map (fun (n : Nat) => (n : Int)) →
       (∀ w ∈ writes, w.success = true) →
       detectSequenceGaps writes = [])
    ∧ (∀ (writes : List WriteOperation) (m : Int),
       (∃ w ∈ writes, w.success = true ∧ w.seqNum < m) →
       (∃ w ∈ writes, w.success = true ∧ m < w.seqNum) →
       (∀ w ∈ writes, w.success = true → w.seqNum ≠ m) →
       m ∈ detectSequenceGaps writes) :=
  ⟨detectSequenceGaps_complete, detectSequenceGaps_flags⟩

/-- Witness for C7: the complete stream seq-1..seq-3 has no gaps; dropping
seq-2 from an otherwise successful stream flags 2. -/
theorem claim_C7_witness :
    detectSequenceGaps
        [{ key := "seq-1", value := "v1", success := true, seqNum := 1 },
         { key := "seq-2", value := "v2", success := true, seqNum := 2 },
         { key := "seq-3", value := "v3", success := true, seqNum := 3 }] = []
    ∧ (2 : Int) ∈ detectSequenceGaps
        [{ key := "seq-1", value := "v1", success := true, seqNum := 1 },
         { key := "seq-3", value := "v3", success := true, seqNum := 3 }] :=
  ⟨claim_C7.1 3 _ (by decide) (by decide),
   claim_C7.2 _ 2 (by decide) (by decide) (by decide)⟩

/-! ### C10: experiment-4 analyzer emits only successful trials -/

/-- The line processing appends only results whose success flag was just set. -/
theorem processLine_all_success (parseDur : String → Int) (st : TestMap × List E4TestResult)
    (line : E4LogLine) (h : ∀ r ∈ st.2, r.success = true) :
    ∀ r ∈ (processLine parseDur st line).2, r.success = true := by
  obtain ⟨m, results⟩ := st
  intro r hr
  unfold processLine at hr
  dsimp only at hr
  split at hr
  · split at hr
    · rcases List.mem_append.mp hr with hmem | hmem
      · exact h r hmem
      · rw [List.mem_singleton] at hmem
        subst hmem
        rfl
    · exact h r hr
  · exact h r hr

/-- A nonempty all-successful result group has an exact success rate of 100. -/
theorem rate_100 (rs : List E4TestResult) (h : ∀ r ∈ rs, r.success = true) (hne : rs ≠ []) :
    ((successCount rs : ℚ) / (rs.length : ℚ)) * 100 = 100 := by
  have hc : successCount rs = rs.length := by
    unfold successCount
    exact List.countP_eq_length.mpr (fun a ha => by simpa using h a ha)
  rw [hc]
  have hlen : (rs.length : ℚ) ≠ 0 := by
    have hl : rs.length ≠ 0 := by
      simpa [List.length_eq_zero] using hne
    exact_mod_cast hl
  field_simp

/-- C10: every test result emitted by the experiment-4 log parser has its
success flag set (a result is appended only when a PRECISION_SUCCESS line is
parsed), so every nonempty per-scenario success rate and the overall success
rate of the aggregated report equal exactly 100 percent. -/
theorem claim_C10 (parseDur : String → Int) (lines : List E4LogLine) :
    (∀ r ∈ parseLogFile parseDur lines, r.success = true)
    ∧ (∀ s : String, scenarioResults (parseLogFile parseDur lines) s ≠ [] →
        scenarioSuccessRate (parseLogFile parseDur lines) s = 100)
    ∧ (parseLogFile parseDur lines ≠ [] →
        overallSuccessRate (parseLogFile parseDur lines) = 100) := by
  have hall : ∀ r ∈ parseLogFile parseDur lines, r.success = true := by
    unfold parseLogFile
    have hgen : ∀ (st : TestMap × List E4TestResult), (∀ r ∈ st.2, r.success = true) →
        ∀ r ∈ (lines.foldl (processLine parseDur) st).2, r.success = true := by
      induction lines with
      | nil => intro st hinv; simpa using hinv
      | cons line rest ih =>
        intro st hinv
        rw [List.foldl_cons]
        exact ih _ (processLine_all_success parseDur st line hinv)
    exact hgen (fun _ => none, []) (by simp)
  refine ⟨hall, ?_, ?_⟩
  · intro s hne
    refine rate_100 _ ?_ hne
    intro r hrm
    exact hall r (List.mem_filter.mp hrm).1
  · intro hne
    exact rate_100 _ hall hne

/-- The duration parser stub for the C10 witness. -/
def demoParseDur : String → Int := fun _ => 1335000000

/-- A small concrete log for the C10 witness: one completed successful test
and one test that never reaches PRECISION_SUCCESS. -/
def demoLines : List E4LogLine :=
  [{ timestamp := 100, startMatch := some ("test-000001", "ImmediateFailure"),
     writeCompleteMatch := none, recoveryMatch := none, successMatch := none },
   { timestamp := 101, startMatch := none, writeCompleteMatch := some "test-000001",
     recoveryMatch := none, successMatch := none },
   { timestamp := 102, startMatch := some ("test-000002", "RapidSequential"),
     writeCompleteMatch := none, recoveryMatch := none, successMatch := none },
   { timestamp := 103, startMatch := none, writeCompleteMatch := none,
     recoveryMatch := some ("test-000001", "1.335s"), successMatch := none },
   { timestamp := 104, startMatch := none, writeCompleteMatch := none,
     recoveryMatch := none, successMatch := some ("test-000001", "1.335s") }]

/-- Witness for C10: the parsed demo log reports exactly 100 percent, per
scenario and overall. -/
theorem claim_C10_witness :
    scenarioSuccessRate (parseLogFile demoParseDur demoLines) "ImmediateFailure" = 100
    ∧ overallSuccessRate (parseLogFile demoParseDur demoLines) = 100 :=
  ⟨(claim_C10 demoParseDur demoLines).2.1 "ImmediateFailure" (by decide),
   (claim_C10 demoParseDur demoLines).2.2 (by decide)⟩
